import Mathlib

/-!
Shallow embedding of the mm2ledger account reconciliation and import
pipeline (`src/mm2ledger/config.py`, `database.py`, `importer.py`,
`cli.py`), together with proofs of the specification's properties.

Python strings are modelled as Lean `String` (a packed `List Char`).
Python `str.replace` and the two `re` substitutions used by the code
are reimplemented below with the same left-to-right, non-overlapping
scanning semantics; ASCII character classes model the regex shorthands.
-/

/-! ### String utilities shared by the embedding -/

/-- Python `str.replace` semantics on character lists: scan left to
right, replacing every non-overlapping occurrence of `pat` by `rep`
and resuming after a replaced occurrence.  Total for any fuel;
faithful whenever `fuel ≥ l.length` and `pat` is non-empty. -/
def replaceFuel (pat rep : List Char) : Nat → List Char → List Char
  | 0, l => l
  | _ + 1, [] => []
  | fuel + 1, c :: cs =>
    if pat.isPrefixOf (c :: cs) then
      rep ++ replaceFuel pat rep fuel ((c :: cs).drop pat.length)
    else c :: replaceFuel pat rep fuel cs

/-- Python `s.replace(pat, rep)` for a non-empty pattern. -/
def pyReplace (s pat rep : String) : String :=
  String.mk (replaceFuel pat.data rep.data s.data.length s.data)

/-- Does `pat` occur as a contiguous run inside `l`? -/
def hasOcc (pat : List Char) : List Char → Bool
  | [] => pat.isEmpty
  | c :: cs => pat.isPrefixOf (c :: cs) || hasOcc pat cs

/-- Python `s.split("\n")`: the lines of `l`, splitting at every newline. -/
def splitLines : List Char → List (List Char)
  | [] => [[]]
  | c :: cs =>
    if c = '\n' then [] :: splitLines cs
    else
      match splitLines cs with
      | [] => [[c]]
      | l :: ls => (c :: l) :: ls

/-- Does the line begin with an ISO date `YYYY-MM-DD`?  This is the
multiline pattern `\d{4}-\d{2}-\d{2}` anchored at line start used by
`import_account` (importer.py line 63), with ASCII digits. -/
def startsWithDateL : List Char → Bool
  | y1 :: y2 :: y3 :: y4 :: '-' :: m1 :: m2 :: '-' :: d1 :: d2 :: _ =>
    y1.isDigit && y2.isDigit && y3.isDigit && y4.isDigit &&
      m1.isDigit && m2.isDigit && d1.isDigit && d2.isDigit
  | _ => false

/-- Count of lines of `s` beginning with an ISO date: `re.findall` with
a line-start-anchored date pattern in multiline mode finds exactly one
match per such line. -/
def countDatedLines (s : String) : Nat :=
  (splitLines s.data).countP startsWithDateL

/-- Characters of the class `[A-Za-z0-9-]` in the UUID rewrite regex of
`_postprocess` (importer.py line 126). -/
def isUUIDChar (c : Char) : Bool := c.isAlphanum || c == '-'

/-- Attempt to match the regex `UUID: ([A-Za-z0-9-]*)/([0-9]*)` at the
head of `l`; on success return the replacement text (`UUID: ` followed
by both capture groups, i.e. with the slash dropped) together with the
input remaining after the match.  Both groups are maximal runs, as the
greedy regex produces. -/
def tryMatchUUID : List Char → Option (List Char × List Char)
  | 'U' :: 'U' :: 'I' :: 'D' :: ':' :: ' ' :: rest =>
    match rest.dropWhile isUUIDChar with
    | '/' :: r2 =>
      some ("UUID: ".data ++ rest.takeWhile isUUIDChar ++ r2.takeWhile Char.isDigit,
        r2.dropWhile Char.isDigit)
    | _ => none
  | _ => none

/-- `re.sub` for the UUID pattern: scan left to right, replacing each
non-overlapping match and resuming after it; faithful whenever
`fuel ≥ l.length`. -/
def subUUIDFuel : Nat → List Char → List Char
  | 0, l => l
  | _ + 1, [] => []
  | fuel + 1, c :: cs =>
    match tryMatchUUID (c :: cs) with
    | some (repl, remaining) => repl ++ subUUIDFuel fuel remaining
    | none => c :: subUUIDFuel fuel cs

/-- The UUID slash-stripping substitution of `_postprocess`. -/
def subUUID (s : String) : String :=
  String.mk (subUUIDFuel s.data.length s.data)

/-- Is there a position in `l` where the UUID rewrite regex matches? -/
def hasUUIDMatch : List Char → Bool
  | [] => false
  | c :: cs => (tryMatchUUID (c :: cs)).isSome || hasUUIDMatch cs

/-- Python `s.strip()`: drop leading and trailing whitespace. -/
def pyStrip (s : String) : String :=
  String.mk (((s.data.dropWhile Char.isWhitespace).reverse.dropWhile Char.isWhitespace).reverse)

/-! ### Data model (config.py, database.py) -/

/-- `AccountConfig` (config.py lines 16-28): persisted per-account
configuration.  `start_date` defaults to `"2024-01-01"` and `enabled`
defaults to `false`, matching the dataclass defaults. -/
structure AccountConfig where
  id : Int
  mm_name : String
  currency : String
  ledger_account : String
  journal_file : String
  start_date : String := "2024-01-01"
  enabled : Bool := false
  iban : Option String := none
  bic : Option String := none
  deriving DecidableEq

/-- `Account` (database.py lines 9-17): an account row as discovered in
the MoneyMoney database. -/
structure Account where
  id : Int
  name : String
  currency : String
  iban : Option String := none
  bic : Option String := none
  deriving DecidableEq

/-- `Config` (config.py lines 31-41): top-level configuration. -/
structure Config where
  database_path : String
  password_source : String := "env:MM_DB_PASSWORD"
  cipher_compatibility : Int := 4
  ledger_dir : String := "./ledger"
  rules_file : String := "rules.journal"
  purpose_column : Option String := none
  accounts : List AccountConfig := []
  deriving DecidableEq

/-- `generate_ledger_account` (config.py lines 120-122). -/
def generate_ledger_account (mm_name : String) : String :=
  "Assets:" ++ mm_name

/-- `generate_journal_filename` (config.py lines 125-128). -/
def generate_journal_filename (ledger_account : String) : String :=
  pyReplace (pyReplace ledger_account ":" "_") " " "_" ++ ".journal"

/-! ### Configuration merge engine (config.py lines 131-169) -/

/-- Lookup in the Python dict `{acc.id: acc for acc in l}`: the last
entry of `l` carrying the given id, if any (later entries overwrite
earlier ones during dict construction). -/
def dict_by_id (l : List AccountConfig) (i : Int) : Option AccountConfig :=
  l.reverse.find? fun a => a.id == i

/-- The in-place refresh of a surviving entry (config.py lines 151-155):
`mm_name`, `currency`, `iban` and `bic` are overwritten from the
discovered truth, every other field is kept. -/
def refresh_from_db (acc db_acc : AccountConfig) : AccountConfig :=
  { acc with
    mm_name := db_acc.mm_name
    currency := db_acc.currency
    iban := db_acc.iban
    bic := db_acc.bic }

/-- Then-branch of the first loop of `merge_accounts` (config.py lines
147-156): existing entries whose id is still discovered survive,
refreshed in place, in their original order. -/
def merge_preserved (existing discovered : List AccountConfig) : List AccountConfig :=
  existing.filterMap fun acc => (dict_by_id discovered acc.id).map (refresh_from_db acc)

/-- Else-branch of the first loop of `merge_accounts` (config.py lines
157-158): ids of existing entries that are no longer discovered. -/
def merge_removed_ids (existing discovered : List AccountConfig) : List Int :=
  (existing.filter fun acc => (dict_by_id discovered acc.id).isNone).map AccountConfig.id

/-- Second loop of `merge_accounts` (config.py lines 160-164):
discovered entries whose id is not in the existing config are added
unchanged, in discovered order. -/
def merge_new_accounts (existing discovered : List AccountConfig) : List AccountConfig :=
  discovered.filter fun acc => (dict_by_id existing acc.id).isNone

/-- `merge_accounts` (config.py lines 131-169) as a pure function.  The
Python version refreshes surviving entries in place and appends new
accounts, then sorts `merged` with the stable `list.sort` keyed by
`id`; the equally stable `insertionSort` on `a.id ≤ b.id` models the
sort.  Returns `(merged, new_accounts, removed_ids)`. -/
def merge_accounts (existing discovered : List AccountConfig) :
    List AccountConfig × List AccountConfig × List Int :=
  ((merge_preserved existing discovered ++
      merge_new_accounts existing discovered).insertionSort (fun a b => a.id ≤ b.id),
    merge_new_accounts existing discovered,
    merge_removed_ids existing discovered)

/-- Construction of a discovered `AccountConfig` from a database
`Account` (cli.py lines 224-237): `start_date` and `enabled` are left at
their dataclass defaults, so a discovered entry is always disabled. -/
def discovered_account_config (acc : Account) : AccountConfig :=
  { id := acc.id, mm_name := acc.name, currency := acc.currency,
    ledger_account := generate_ledger_account acc.name,
    journal_file := generate_journal_filename (generate_ledger_account acc.name),
    iban := acc.iban, bic := acc.bic }

/-! ### Purpose-column discovery (database.py lines 97-124) -/

/-- Does a column name match `re.match(r"^a\d+$", name)` (database.py
line 117): the letter `a` followed by one or more ASCII digits? -/
def is_dynamic_col (name : String) : Bool :=
  match name.data with
  | 'a' :: rest => !rest.isEmpty && rest.all Char.isDigit
  | _ => false

/-- `discover_purpose_column` (database.py lines 97-124) as a function of
the column names returned by `PRAGMA table_info(transactions)`, in their
metadata order.  The Python `dynamic_cols[0]` accesses are rendered as
`head?`, which is `some` in exactly those branches. -/
def discover_purpose_column (column_names : List String) : Option String :=
  let dynamic_cols := column_names.filter is_dynamic_col
  if dynamic_cols.length = 1 then dynamic_cols.head?
  else if dynamic_cols.length > 1 then dynamic_cols.head?
  else none

/-! ### Import pipeline (importer.py) -/

/-- The fields of a fetched transaction row that `_write_csv` reads
directly (importer.py lines 74-84).  The full row additionally flows
into the note field through `json.dumps`, which the embedding keeps as
an explicit serializer parameter. -/
structure Tx where
  transaction_id : Int
  value_date : String
  name : String
  amount : String
  currency : String
  deriving DecidableEq

/-- `_write_csv` (importer.py lines 67-86) at the level of CSV rows: the
header row followed by one exchange row per transaction, with the
synthetic unique id `M-<transaction id>` in the first column. -/
def write_csv (transactions : List Tx) (dumps : Tx → String) : List (List String) :=
  ["UUID", "date", "payee", "amount", "note", "account"] ::
    transactions.map fun txn =>
      ["M-" ++ toString txn.transaction_id, txn.value_date, txn.name,
        txn.currency ++ " " ++ txn.amount, " " ++ dumps txn, ""]

/-- `_postprocess` (importer.py lines 119-127): insert a space between a
semicolon and a following opening brace, rename the fallback expense
category, and strip the slash out of UUID tokens. -/
def _postprocess (output : String) : String :=
  subUUID (pyReplace (pyReplace output ";\x7b" "; \x7b") "Expenses:Unknown" "Unmatched")

/-- Observable outcome of one `import_account` run: the returned count,
the journal file content afterwards (`none` means the file is absent),
and whether the exchange CSV was written and the external converter
invoked. -/
structure ImportResult where
  count : Nat
  journal : Option String
  converter_invoked : Bool
  exchange_written : Bool
  deriving DecidableEq

/-- `import_account` (importer.py lines 15-64) with its effects made
explicit: the fetched transactions (step 2 of the pipeline), the JSON
serializer for the note field, and the external converter — a black box
from the exchange rows and the pre-existing journal content to its
standard output text — are parameters, and the journal file content is
threaded as a value.  Python's `if not output.strip()` emptiness test
is rendered with `pyStrip`. -/
def import_account (transactions : List Tx) (dumps : Tx → String)
    (convert : List (List String) → String → String)
    (journal : Option String) : ImportResult :=
  if transactions.isEmpty then
    { count := 0, journal := journal, converter_invoked := false, exchange_written := false }
  else
    let journal0 := journal.getD ""
    let output := convert (write_csv transactions dumps) journal0
    if pyStrip output = "" then
      { count := 0, journal := some journal0, converter_invoked := true,
        exchange_written := true }
    else
      let post := _postprocess output
      { count := countDatedLines post, journal := some (journal0 ++ "\n" ++ post),
        converter_invoked := true, exchange_written := true }

/-- Assignment `results[key] = value` on an insertion-ordered Python
dict modelled as an association list: an existing key keeps its position
and receives the new value, a fresh key is appended at the end. -/
def dict_insert (results : List (String × Nat)) (key : String) (value : Nat) :
    List (String × Nat) :=
  if results.any fun p => p.1 == key then
    results.map fun p => if p.1 == key then (key, value) else p
  else results ++ [(key, value)]

/-- Lookup `results.get(key)` in the association-list model of a dict. -/
def dict_lookup (results : List (String × Nat)) (key : String) : Option Nat :=
  (results.find? fun p => p.1 == key).map Prod.snd

/-- `import_all` (importer.py lines 130-144), with the per-account
call `import_account(config, account)` abstracted as a function from
the account to its count. -/
def import_all (config : Config) (run_import : AccountConfig → Nat) :
    List (String × Nat) :=
  let enabled := config.accounts.filter fun acc => acc.enabled
  if enabled.isEmpty then []
  else enabled.foldl
    (fun results account => dict_insert results account.ledger_account (run_import account)) []

/-! ### Helper lemmas about the merge engine -/

instance : IsTotal AccountConfig (fun a b => a.id ≤ b.id) :=
  ⟨fun a b => Int.le_total a.id b.id⟩

instance : IsTrans AccountConfig (fun a b => a.id ≤ b.id) :=
  ⟨fun _ _ _ h h' => Int.le_trans h h'⟩

theorem dict_by_id_eq_none {l : List AccountConfig} {i : Int} :
    dict_by_id l i = none ↔ ∀ a ∈ l, a.id ≠ i := by
  simp [dict_by_id, List.find?_eq_none]

theorem dict_by_id_mem {l : List AccountConfig} {i : Int} {a : AccountConfig}
    (h : dict_by_id l i = some a) : a ∈ l ∧ a.id = i := by
  simp only [dict_by_id] at h
  refine ⟨?_, ?_⟩
  · have := List.mem_of_find?_eq_some h
    simpa [List.mem_reverse] using this
  · have := List.find?_some h
    simpa using this

theorem dict_by_id_exists {l : List AccountConfig} {i : Int}
    (h : ∃ a ∈ l, a.id = i) : ∃ a, dict_by_id l i = some a := by
  cases hd : dict_by_id l i with
  | none =>
    obtain ⟨a, ha, hai⟩ := h
    exact absurd hai (dict_by_id_eq_none.mp hd a ha)
  | some a => exact ⟨a, rfl⟩

theorem refresh_id (acc db_acc : AccountConfig) :
    (refresh_from_db acc db_acc).id = acc.id := rfl

theorem refresh_absorb (acc db_acc : AccountConfig) :
    refresh_from_db (refresh_from_db acc db_acc) db_acc = refresh_from_db acc db_acc := rfl

theorem refresh_self (acc : AccountConfig) : refresh_from_db acc acc = acc := by
  cases acc
  rfl

theorem mem_merge_preserved {existing discovered : List AccountConfig} {m : AccountConfig} :
    m ∈ merge_preserved existing discovered ↔
      ∃ acc ∈ existing, ∃ db_acc, dict_by_id discovered acc.id = some db_acc ∧
        refresh_from_db acc db_acc = m := by
  simp [merge_preserved, List.mem_filterMap, Option.map_eq_some']

theorem mem_merged {existing discovered : List AccountConfig} {m : AccountConfig} :
    m ∈ (merge_accounts existing discovered).1 ↔
      m ∈ merge_preserved existing discovered ∨ m ∈ merge_new_accounts existing discovered := by
  simp [merge_accounts]

theorem mem_merged_imp_discovered {existing discovered : List AccountConfig}
    {m : AccountConfig} (hm : m ∈ (merge_accounts existing discovered).1) :
    ∃ d ∈ discovered, d.id = m.id := by
  rcases mem_merged.mp hm with hp | hn
  · rcases mem_merge_preserved.mp hp with ⟨acc, hacc, db_acc, hdb, heq⟩
    rcases dict_by_id_mem hdb with ⟨hdmem, hdid⟩
    refine ⟨db_acc, hdmem, ?_⟩
    rw [← heq, refresh_id]
    exact hdid
  · have : m ∈ discovered := (List.mem_filter.mp hn).1
    exact ⟨m, this, rfl⟩

/-! ### Sample data used by witnesses -/

/-- A persisted account list: id 1 with user-customized fields, id 2. -/
def sample_existing : List AccountConfig :=
  [{ id := 1, mm_name := "Giro", currency := "EUR", ledger_account := "Assets:Giro",
     journal_file := "Assets_Giro.journal", start_date := "2023-05-01", enabled := true,
     iban := some "DE12", bic := none },
   { id := 2, mm_name := "Depot", currency := "EUR", ledger_account := "Assets:Depot",
     journal_file := "Assets_Depot.journal", start_date := "2024-01-01", enabled := false,
     iban := none, bic := none }]

/-- A freshly discovered list: id 1 with changed database truth, id 3 new. -/
def sample_discovered : List AccountConfig :=
  [{ id := 1, mm_name := "Giro Neu", currency := "CHF", ledger_account := "Assets:Giro Neu",
     journal_file := "Assets_Giro_Neu.journal", iban := some "CH99", bic := some "ABC" },
   { id := 3, mm_name := "Spar", currency := "EUR", ledger_account := "Assets:Spar",
     journal_file := "Assets_Spar.journal", iban := none, bic := none }]

/-- Database accounts giving rise to `sample_discovered`-like configs. -/
def sample_db_accounts : List Account :=
  [{ id := 1, name := "Giro Neu", currency := "CHF", iban := some "CH99", bic := some "ABC" },
   { id := 3, name := "Spar", currency := "EUR", iban := none, bic := none }]

/-! ### C1 — merge preserves user fields, refreshes database truth -/

/-- C1: for every existing and discovered list, each existing entry whose
id appears in discovered survives `merge_accounts` with its
`ledger_account`, `journal_file`, `start_date` and `enabled` fields
identical to the input, while `mm_name`, `currency`, `iban` and `bic`
are replaced by the values of the discovered entry with the same id
(the one the discovered-by-id dict holds). -/
theorem merge_accounts_preserves_user_fields
    (existing discovered : List AccountConfig) (e : AccountConfig)
    (he : e ∈ existing) (hid : ∃ d ∈ discovered, d.id = e.id) :
    ∃ d ∈ discovered, d.id = e.id ∧
      ∃ m ∈ (merge_accounts existing discovered).1,
        m.id = e.id ∧ m.ledger_account = e.ledger_account ∧
        m.journal_file = e.journal_file ∧ m.start_date = e.start_date ∧
        m.enabled = e.enabled ∧ m.mm_name = d.mm_name ∧ m.currency = d.currency ∧
        m.iban = d.iban ∧ m.bic = d.bic := by
  obtain ⟨db_acc, hdb⟩ := dict_by_id_exists hid
  obtain ⟨hdbmem, hdbid⟩ := dict_by_id_mem hdb
  refine ⟨db_acc, hdbmem, hdbid, refresh_from_db e db_acc, ?_, rfl, rfl, rfl, rfl, rfl,
    rfl, rfl, rfl, rfl⟩
  exact mem_merged.mpr (Or.inl (mem_merge_preserved.mpr ⟨e, he, db_acc, hdb, rfl⟩))

/-- Witness for C1 at the sample data. -/
theorem merge_accounts_preserves_user_fields_witness :
    ∃ d ∈ sample_discovered, d.id = 1 ∧
      ∃ m ∈ (merge_accounts sample_existing sample_discovered).1,
        m.id = 1 ∧ m.ledger_account = "Assets:Giro" ∧
        m.journal_file = "Assets_Giro.journal" ∧ m.start_date = "2023-05-01" ∧
        m.enabled = true ∧ m.mm_name = d.mm_name ∧ m.currency = d.currency ∧
        m.iban = d.iban ∧ m.bic = d.bic :=
  merge_accounts_preserves_user_fields sample_existing sample_discovered
    { id := 1, mm_name := "Giro", currency := "EUR", ledger_account := "Assets:Giro",
      journal_file := "Assets_Giro.journal", start_date := "2023-05-01", enabled := true,
      iban := some "DE12", bic := none }
    (by decide) (by decide)

/-! ### C2 — merge invariants: unique ids, sorted, ids come from discovered -/

theorem merge_preserved_ids_sublist (existing discovered : List AccountConfig) :
    List.Sublist ((merge_preserved existing discovered).map AccountConfig.id)
      (existing.map AccountConfig.id) := by
  induction existing with
  | nil => simp [merge_preserved]
  | cons a l ih =>
    simp only [merge_preserved, List.filterMap_cons, List.map_cons] at ih ⊢
    cases h : (dict_by_id discovered a.id).map (refresh_from_db a) with
    | none => exact ih.cons a.id
    | some b =>
      have hb : b.id = a.id := by
        rcases Option.map_eq_some'.mp h with ⟨db_acc, _, href⟩
        rw [← href, refresh_id]
      simp only [List.map_cons, hb]
      exact ih.cons₂ a.id

theorem merge_new_ids_sublist (existing discovered : List AccountConfig) :
    List.Sublist ((merge_new_accounts existing discovered).map AccountConfig.id)
      (discovered.map AccountConfig.id) :=
  (List.filter_sublist discovered).map AccountConfig.id

/-- C2: when the existing and discovered lists each have pairwise-distinct
ids, the merged list of `merge_accounts` has no duplicate ids, is sorted
ascending by id, and every id in it is the id of some discovered entry. -/
theorem merge_accounts_invariants (existing discovered : List AccountConfig)
    (hE : (existing.map AccountConfig.id).Nodup)
    (hD : (discovered.map AccountConfig.id).Nodup) :
    ((merge_accounts existing discovered).1.map AccountConfig.id).Nodup ∧
    List.Sorted (fun a b : AccountConfig => a.id ≤ b.id) (merge_accounts existing discovered).1 ∧
    ∀ m ∈ (merge_accounts existing discovered).1, ∃ d ∈ discovered, d.id = m.id := by
  refine ⟨?_, ?_, fun m hm => mem_merged_imp_discovered hm⟩
  · have hperm :
        List.Perm (merge_accounts existing discovered).1
          (merge_preserved existing discovered ++ merge_new_accounts existing discovered) :=
      List.perm_insertionSort _ _
    rw [(hperm.map AccountConfig.id).nodup_iff, List.map_append]
    refine List.Nodup.append ?_ ?_ ?_
    · exact hE.sublist (merge_preserved_ids_sublist existing discovered)
    · exact hD.sublist (merge_new_ids_sublist existing discovered)
    · intro i hip hin
      have hie : i ∈ existing.map AccountConfig.id :=
        (merge_preserved_ids_sublist existing discovered).subset hip
      obtain ⟨e, he, hei⟩ := List.mem_map.mp hie
      obtain ⟨n, hn, hni⟩ := List.mem_map.mp hin
      have hn' := List.mem_filter.mp hn
      have hnone : dict_by_id existing n.id = none := Option.isNone_iff_eq_none.mp hn'.2
      exact dict_by_id_eq_none.mp hnone e he (by rw [hei, ← hni])
  · exact List.sorted_insertionSort (fun a b : AccountConfig => a.id ≤ b.id) _

/-- Witness for C2 at the sample data. -/
theorem merge_accounts_invariants_witness :
    ((merge_accounts sample_existing sample_discovered).1.map AccountConfig.id).Nodup ∧
    List.Sorted (fun a b : AccountConfig => a.id ≤ b.id)
      (merge_accounts sample_existing sample_discovered).1 ∧
    ∀ m ∈ (merge_accounts sample_existing sample_discovered).1,
      ∃ d ∈ sample_discovered, d.id = m.id :=
  merge_accounts_invariants sample_existing sample_discovered (by decide) (by decide)

/-! ### C3 — merge detects removal -/

/-- C3: an existing entry whose id does not appear among the discovered
ids has its id recorded in `removed_ids` and appears in neither the
merged list nor the newly-added list. -/
theorem merge_accounts_detects_removal
    (existing discovered : List AccountConfig) (e : AccountConfig)
    (he : e ∈ existing) (hid : ∀ d ∈ discovered, d.id ≠ e.id) :
    e.id ∈ (merge_accounts existing discovered).2.2 ∧
    e ∉ (merge_accounts existing discovered).1 ∧
    e ∉ (merge_accounts existing discovered).2.1 := by
  have hnone : dict_by_id discovered e.id = none := dict_by_id_eq_none.mpr hid
  refine ⟨?_, ?_, ?_⟩
  · show e.id ∈ merge_removed_ids existing discovered
    refine List.mem_map.mpr ⟨e, List.mem_filter.mpr ⟨he, ?_⟩, rfl⟩
    rw [Option.isNone_iff_eq_none]
    exact hnone
  · intro hmem
    obtain ⟨d, hd, hdi⟩ := mem_merged_imp_discovered hmem
    exact hid d hd hdi
  · intro hmem
    have : e ∈ discovered := (List.mem_filter.mp hmem).1
    exact hid e this rfl

/-- Witness for C3 at the sample data: the existing id 2 vanished. -/
theorem merge_accounts_detects_removal_witness :
    (2 : Int) ∈ (merge_accounts sample_existing sample_discovered).2.2 ∧
    ({ id := 2, mm_name := "Depot", currency := "EUR", ledger_account := "Assets:Depot",
       journal_file := "Assets_Depot.journal", start_date := "2024-01-01", enabled := false,
       iban := none, bic := none } : AccountConfig) ∉
      (merge_accounts sample_existing sample_discovered).1 ∧
    ({ id := 2, mm_name := "Depot", currency := "EUR", ledger_account := "Assets:Depot",
       journal_file := "Assets_Depot.journal", start_date := "2024-01-01", enabled := false,
       iban := none, bic := none } : AccountConfig) ∉
      (merge_accounts sample_existing sample_discovered).2.1 :=
  merge_accounts_detects_removal sample_existing sample_discovered
    { id := 2, mm_name := "Depot", currency := "EUR", ledger_account := "Assets:Depot",
      journal_file := "Assets_Depot.journal", start_date := "2024-01-01", enabled := false,
      iban := none, bic := none }
    (by decide) (by decide)

/-! ### C4 — merge detects addition, disabled by default -/

/-- C4: a discovered entry (built from a database account the way the
configuration command builds them, i.e. with the dataclass defaults)
whose id does not appear among the existing ids is added by
`merge_accounts` both to the merged list and to the newly-added list,
unchanged, hence with `enabled = false`. -/
theorem merge_accounts_detects_addition
    (existing : List AccountConfig) (db_accounts : List Account) (d : AccountConfig)
    (hd : d ∈ db_accounts.map discovered_account_config)
    (hnot : ∀ e ∈ existing, e.id ≠ d.id) :
    d ∈ (merge_accounts existing (db_accounts.map discovered_account_config)).2.1 ∧
    d ∈ (merge_accounts existing (db_accounts.map discovered_account_config)).1 ∧
    d.enabled = false := by
  have hnew : d ∈ merge_new_accounts existing (db_accounts.map discovered_account_config) := by
    refine List.mem_filter.mpr ⟨hd, ?_⟩
    rw [Option.isNone_iff_eq_none]
    exact dict_by_id_eq_none.mpr hnot
  refine ⟨hnew, mem_merged.mpr (Or.inr hnew), ?_⟩
  obtain ⟨a, _, ha⟩ := List.mem_map.mp hd
  rw [← ha]
  rfl

/-- Witness for C4 at the sample data: the discovered id 3 is new. -/
theorem merge_accounts_detects_addition_witness :
    discovered_account_config
        { id := 3, name := "Spar", currency := "EUR", iban := none, bic := none } ∈
      (merge_accounts sample_existing (sample_db_accounts.map discovered_account_config)).2.1 ∧
    discovered_account_config
        { id := 3, name := "Spar", currency := "EUR", iban := none, bic := none } ∈
      (merge_accounts sample_existing (sample_db_accounts.map discovered_account_config)).1 ∧
    (discovered_account_config
        { id := 3, name := "Spar", currency := "EUR", iban := none, bic := none }).enabled =
      false :=
  merge_accounts_detects_addition sample_existing sample_db_accounts
    (discovered_account_config
      { id := 3, name := "Spar", currency := "EUR", iban := none, bic := none })
    (by decide) (by decide)

/-! ### C5 — merge idempotence / no duplicate growth -/

theorem discovered_id_mem_merged (existing discovered : List AccountConfig)
    (dd : AccountConfig) (hdd : dd ∈ discovered) :
    ∃ a ∈ (merge_accounts existing discovered).1, a.id = dd.id := by
  by_cases hex : ∃ e ∈ existing, e.id = dd.id
  · obtain ⟨e, he, hei⟩ := hex
    obtain ⟨db_acc, hdb⟩ := dict_by_id_exists ⟨dd, hdd, hei.symm⟩
    refine ⟨refresh_from_db e db_acc,
      mem_merged.mpr (Or.inl (mem_merge_preserved.mpr ⟨e, he, db_acc, hdb, rfl⟩)), ?_⟩
    rw [refresh_id]
    exact hei
  · push_neg at hex
    refine ⟨dd, mem_merged.mpr (Or.inr (List.mem_filter.mpr ⟨hdd, ?_⟩)), rfl⟩
    rw [Option.isNone_iff_eq_none]
    exact dict_by_id_eq_none.mpr hex

theorem filterMap_some_self {α : Type} {f : α → Option α} :
    ∀ {l : List α}, (∀ a ∈ l, f a = some a) → l.filterMap f = l
  | [], _ => rfl
  | a :: l, h => by
    rw [List.filterMap_cons, h a (List.mem_cons_self a l),
      filterMap_some_self fun b hb => h b (List.mem_cons_of_mem a hb)]

theorem merged_sorted (existing discovered : List AccountConfig) :
    List.Sorted (fun a b : AccountConfig => a.id ≤ b.id)
      (merge_accounts existing discovered).1 :=
  List.sorted_insertionSort (fun a b : AccountConfig => a.id ≤ b.id) _

/-- C5: merging is deterministic (a pure function of its inputs, so two
calls on the same existing and discovered lists return identical
results), and re-merging the merged output with the same discovered set
— the situation of a repeated configuration run — reproduces exactly
the same merged list with nothing newly added and nothing removed: no
duplicate growth.  Discovered ids must be pairwise distinct, which the
id-keyed source database guarantees. -/
theorem merge_accounts_idempotent (existing discovered : List AccountConfig)
    (hD : (discovered.map AccountConfig.id).Nodup) :
    merge_accounts (merge_accounts existing discovered).1 discovered =
      ((merge_accounts existing discovered).1, [], []) := by
  set m := (merge_accounts existing discovered).1 with hm
  have hall : ∀ acc ∈ m, ∃ d ∈ discovered, d.id = acc.id := fun acc hacc =>
    mem_merged_imp_discovered (hm ▸ hacc)
  have hnew : merge_new_accounts m discovered = [] := by
    rw [merge_new_accounts, List.filter_eq_nil_iff]
    intro dd hdd
    obtain ⟨a, ha, hai⟩ := discovered_id_mem_merged existing discovered dd hdd
    rw [Bool.not_eq_true, Option.isNone_eq_false_iff, Option.isSome_iff_ne_none]
    intro hnone
    exact dict_by_id_eq_none.mp hnone a (hm ▸ ha) hai
  have hrem : merge_removed_ids m discovered = [] := by
    rw [merge_removed_ids]
    rw [show (m.filter fun acc => (dict_by_id discovered acc.id).isNone) = [] from ?_]
    · rfl
    · rw [List.filter_eq_nil_iff]
      intro acc hacc
      obtain ⟨d, hd, hdi⟩ := hall acc hacc
      rw [Bool.not_eq_true, Option.isNone_eq_false_iff, Option.isSome_iff_ne_none]
      intro hnone
      exact dict_by_id_eq_none.mp hnone d hd hdi
  have hpres : merge_preserved m discovered = m := by
    rw [merge_preserved]
    refine filterMap_some_self ?_
    intro acc hacc
    rcases mem_merged.mp (hm ▸ hacc) with hp | hn
    · rcases mem_merge_preserved.mp hp with ⟨e, _, db_acc, hdb, heq⟩
      have hid : acc.id = e.id := by rw [← heq, refresh_id]
      rw [hid, hdb, Option.map_some']
      rw [← heq, refresh_absorb]
    · have hmem : acc ∈ discovered := (List.mem_filter.mp hn).1
      obtain ⟨db_acc, hdb⟩ := dict_by_id_exists ⟨acc, hmem, rfl⟩
      obtain ⟨hdbmem, hdbid⟩ := dict_by_id_mem hdb
      have : db_acc = acc := List.inj_on_of_nodup_map hD hdbmem hmem hdbid
      rw [hdb, this, Option.map_some', refresh_self]
  show ((merge_preserved m discovered ++ merge_new_accounts m discovered).insertionSort
      (fun a b => a.id ≤ b.id), merge_new_accounts m discovered,
      merge_removed_ids m discovered) = (m, [], [])
  rw [hnew, hrem, hpres, List.append_nil,
    List.Sorted.insertionSort_eq (merged_sorted existing discovered)]

/-- Witness for C5 at the sample data. -/
theorem merge_accounts_idempotent_witness :
    merge_accounts (merge_accounts sample_existing sample_discovered).1 sample_discovered =
      ((merge_accounts sample_existing sample_discovered).1, [], []) :=
  merge_accounts_idempotent sample_existing sample_discovered (by decide)

/-! ### C6 — purpose-column discovery -/

theorem discover_purpose_column_eq_head (column_names : List String) :
    discover_purpose_column column_names =
      (column_names.filter is_dynamic_col).head? := by
  rw [discover_purpose_column]
  cases h : column_names.filter is_dynamic_col with
  | nil => simp
  | cons c cs =>
    cases cs with
    | nil => simp
    | cons c2 cs2 =>
      have h1 : ¬(c :: c2 :: cs2).length = 1 := by
        simp only [List.length_cons]
        omega
      have h2 : (c :: c2 :: cs2).length > 1 := by
        simp only [List.length_cons]
        omega
      rw [if_neg h1, if_pos h2]

/-- C6: purpose-column discovery selects the column names matching the
pattern `a` followed by one or more digits: with exactly one match it
is returned, with several matches the first in the metadata's natural
order is returned, with none the result is absent; in particular for
columns `["a1717838516", "rowid", "name"]` it returns `"a1717838516"`. -/
theorem discover_purpose_column_spec (column_names : List String) :
    (∀ c, column_names.filter is_dynamic_col = [c] →
      discover_purpose_column column_names = some c) ∧
    (∀ c rest, column_names.filter is_dynamic_col = c :: rest →
      discover_purpose_column column_names = some c) ∧
    (column_names.filter is_dynamic_col = [] →
      discover_purpose_column column_names = none) ∧
    discover_purpose_column ["a1717838516", "rowid", "name"] = some "a1717838516" := by
  refine ⟨?_, ?_, ?_, by decide⟩
  · intro c h
    rw [discover_purpose_column_eq_head, h]
    rfl
  · intro c rest h
    rw [discover_purpose_column_eq_head, h]
    rfl
  · intro h
    rw [discover_purpose_column_eq_head, h]
    rfl

/-- Witness for C6: two matches, the first is returned. -/
theorem discover_purpose_column_spec_witness :
    discover_purpose_column ["a111", "a222"] = some "a111" :=
  (discover_purpose_column_spec ["a111", "a222"]).2.1 "a111" ["a222"] (by decide)

/-! ### C7 — zero fetched transactions: no writes at all -/

/-- C7: when the transaction fetch returns zero transactions,
`import_account` returns 0 and performs no writes: the journal file is
untouched (it is not even created, which the claim's parenthetical
allows), no exchange file is produced, and the external converter is
not invoked. -/
theorem import_account_zero_result (dumps : Tx → String)
    (convert : List (List String) → String → String) (journal : Option String) :
    import_account [] dumps convert journal =
      { count := 0, journal := journal, converter_invoked := false,
        exchange_written := false } := rfl

/-! ### C8 — count equals the dated lines of the appended text -/

/-- C8: for a non-empty fetch whose converter output is not
whitespace-only, `import_account` returns the number of lines of the
post-processed text beginning with an ISO date `YYYY-MM-DD`, and that
text is exactly what gets appended to the journal after a blank-line
separator (the separator contributes no dated line). -/
theorem import_account_count_dated_lines (transactions : List Tx) (dumps : Tx → String)
    (convert : List (List String) → String → String) (journal : Option String)
    (hne : transactions ≠ [])
    (hout : pyStrip (convert (write_csv transactions dumps) (journal.getD "")) ≠ "") :
    (import_account transactions dumps convert journal).count =
      countDatedLines (_postprocess (convert (write_csv transactions dumps) (journal.getD ""))) ∧
    (import_account transactions dumps convert journal).journal =
      some (journal.getD "" ++ "\n" ++
        _postprocess (convert (write_csv transactions dumps) (journal.getD ""))) := by
  have h1 : transactions.isEmpty = false := by
    rw [List.isEmpty_eq_false]
    exact hne
  rw [import_account]
  simp only [h1, Bool.false_eq_true, if_false, if_neg hout]
  refine ⟨?_, ?_⟩ <;> first
    | rfl
    | trivial

/-- Witness for C8: converter output with exactly three dated lines
yields a count of 3. -/
theorem import_account_count_dated_lines_witness :
    (import_account
        [{ transaction_id := 7, value_date := "2024-02-01", name := "Shop",
           amount := "-12.34", currency := "EUR" }]
        (fun _ => "")
        (fun _ _ =>
          "2024-02-01 Shop\n  Unmatched  12.34 EUR\n2024-02-02 Shop\n  x\n2024-02-03 Shop\n")
        none).count = 3 := by
  have h := (import_account_count_dated_lines
    [{ transaction_id := 7, value_date := "2024-02-01", name := "Shop",
       amount := "-12.34", currency := "EUR" }]
    (fun _ => "")
    (fun _ _ =>
      "2024-02-01 Shop\n  Unmatched  12.34 EUR\n2024-02-02 Shop\n  x\n2024-02-03 Shop\n")
    none (by decide) (by decide)).1
  rw [h]
  decide

/-! ### C9 — slash stripping: one slash per token per pass -/

theorem replaceFuel_eq_self (pat rep : List Char) :
    ∀ (fuel : Nat) (l : List Char), hasOcc pat l = false →
      replaceFuel pat rep fuel l = l
  | 0, _, _ => rfl
  | _ + 1, [], _ => rfl
  | fuel + 1, c :: cs, h => by
    have h' : (pat.isPrefixOf (c :: cs) || hasOcc pat cs) = false := h
    rcases Bool.or_eq_false_iff.mp h' with ⟨hp, htail⟩
    rw [replaceFuel, hp]
    simp only [Bool.false_eq_true, if_false]
    rw [replaceFuel_eq_self pat rep fuel cs htail]

theorem subUUIDFuel_eq_self :
    ∀ (fuel : Nat) (l : List Char), hasUUIDMatch l = false →
      subUUIDFuel fuel l = l
  | 0, _, _ => rfl
  | _ + 1, [], _ => rfl
  | fuel + 1, c :: cs, h => by
    have h' : ((tryMatchUUID (c :: cs)).isSome || hasUUIDMatch cs) = false := h
    rcases Bool.or_eq_false_iff.mp h' with ⟨hp, htail⟩
    have hnone : tryMatchUUID (c :: cs) = none := by
      cases htm : tryMatchUUID (c :: cs) with
      | none => rfl
      | some p =>
        rw [htm] at hp
        exact absurd hp (by simp)
    rw [subUUIDFuel, hnone]
    rw [subUUIDFuel_eq_self fuel cs htail]

theorem pyReplace_eq_self {s pat rep : String} (h : hasOcc pat.data s.data = false) :
    pyReplace s pat rep = s := by
  rw [pyReplace, replaceFuel_eq_self pat.data rep.data s.data.length s.data h]

theorem subUUID_eq_self {s : String} (h : hasUUIDMatch s.data = false) :
    subUUID s = s := by
  rw [subUUID, subUUIDFuel_eq_self s.data.length s.data h]

theorem postprocess_eq_self {t : String}
    (h1 : hasOcc ";\x7b".data t.data = false)
    (h2 : hasOcc "Expenses:Unknown".data t.data = false)
    (h3 : hasUUIDMatch t.data = false) :
    _postprocess t = t := by
  rw [_postprocess, pyReplace_eq_self h1, pyReplace_eq_self h2, subUUID_eq_self h3]

/-- C9 counterexample: post-processing is not idempotent on every output
text.  The UUID substitution removes only the first slash after each
`UUID: ` token per application, so on `"UUID: M-1/2/3"` one application
yields `"UUID: M-12/3"` and a second application yields
`"UUID: M-123"`. -/
theorem postprocess_not_idempotent :
    _postprocess (_postprocess "UUID: M-1/2/3") ≠ _postprocess "UUID: M-1/2/3" := by
  decide

/-- C9 (amended): post-processing strips the forward slash out of the
synthetic unique-id token — on output text carrying the token
`"M-123/456"` in a UUID comment it yields `"M-123456"` — and applying
post-processing twice yields the same result as once for every output
text whose once-processed form retains no `";{"`, no
`"Expenses:Unknown"` and no slash-bearing UUID token (as is the case
for the single-slash example); with several slashes in a token region,
each application removes only the first, so unconditional idempotence
fails. -/
theorem postprocess_slash_strip (s : String)
    (h1 : hasOcc ";\x7b".data (_postprocess s).data = false)
    (h2 : hasOcc "Expenses:Unknown".data (_postprocess s).data = false)
    (h3 : hasUUIDMatch (_postprocess s).data = false) :
    _postprocess (_postprocess s) = _postprocess s ∧
    _postprocess "UUID: M-123/456" = "UUID: M-123456" :=
  ⟨postprocess_eq_self h1 h2 h3, by decide⟩

/-- Witness for C9 (amended) at the single-slash example. -/
theorem postprocess_slash_strip_witness :
    _postprocess (_postprocess "UUID: M-123/456") = _postprocess "UUID: M-123/456" ∧
    _postprocess "UUID: M-123/456" = "UUID: M-123456" :=
  postprocess_slash_strip "UUID: M-123/456" (by decide) (by decide) (by decide)

/-! ### C10 — import_all keys its result mapping by ledger_account -/

theorem dict_lookup_cons (p : String × Nat) (l : List (String × Nat)) (k : String) :
    dict_lookup (p :: l) k = if p.1 == k then some p.2 else dict_lookup l k := by
  rw [dict_lookup]
  by_cases h : (p.1 == k) = true
  · have hfind : List.find? (fun q : String × Nat => q.1 == k) (p :: l) = some p :=
      @List.find?_cons_of_pos _ (fun q : String × Nat => q.1 == k) p l h
    rw [hfind, if_pos h]
    rfl
  · have hfind : List.find? (fun q : String × Nat => q.1 == k) (p :: l) =
        List.find? (fun q : String × Nat => q.1 == k) l :=
      @List.find?_cons_of_neg _ (fun q : String × Nat => q.1 == k) p l h
    rw [hfind, if_neg h]
    rfl

theorem dict_lookup_map_update_self (k : String) (v : Nat) :
    ∀ l : List (String × Nat), (l.any fun p => p.1 == k) = true →
      dict_lookup (l.map fun p => if p.1 == k then (k, v) else p) k = some v
  | [], h => by simp at h
  | p :: l, h => by
    simp only [List.map_cons]
    by_cases hp : (p.1 == k) = true
    · rw [if_pos hp, dict_lookup_cons]
      simp
    · rw [if_neg hp, dict_lookup_cons, if_neg hp]
      refine dict_lookup_map_update_self k v l ?_
      simp only [List.any_cons, Bool.or_eq_true] at h
      rcases h with h | h
      · exact absurd h hp
      · exact h

theorem dict_lookup_map_update_ne (k' k : String) (v : Nat) (hk : (k' == k) = false) :
    ∀ l : List (String × Nat),
      dict_lookup (l.map fun p => if p.1 == k' then (k', v) else p) k = dict_lookup l k
  | [] => rfl
  | p :: l => by
    simp only [List.map_cons]
    by_cases hp : (p.1 == k') = true
    · have hp1 : p.1 = k' := by simpa using hp
      rw [if_pos hp, dict_lookup_cons, dict_lookup_cons]
      simp only [hp1, hk, Bool.false_eq_true, if_false]
      exact dict_lookup_map_update_ne k' k v hk l
    · rw [if_neg hp, dict_lookup_cons, dict_lookup_cons]
      by_cases hpk : (p.1 == k) = true
      · rw [if_pos hpk, if_pos hpk]
      · rw [if_neg hpk, if_neg hpk]
        exact dict_lookup_map_update_ne k' k v hk l

theorem dict_lookup_append_single (k' k : String) (v : Nat) :
    ∀ l : List (String × Nat), (l.any fun p => p.1 == k') = false →
      dict_lookup (l ++ [(k', v)]) k = if k' == k then some v else dict_lookup l k
  | [], _ => by
    simp only [List.nil_append]
    rw [dict_lookup_cons]
  | p :: l, h => by
    simp only [List.any_cons, Bool.or_eq_false_iff] at h
    show dict_lookup (p :: (l ++ [(k', v)])) k = _
    rw [dict_lookup_cons, dict_lookup_cons]
    by_cases hk : (k' == k) = true
    · have hkk : k' = k := by simpa using hk
      have hpk : (p.1 == k) = false := by
        have h1 := h.1
        rwa [hkk] at h1
      simp only [hpk, Bool.false_eq_true, if_false]
      rw [dict_lookup_append_single k' k v l h.2]
    · have hk' : (k' == k) = false := by simpa using hk
      simp only [hk', Bool.false_eq_true, if_false]
      by_cases hpk : (p.1 == k) = true
      · rw [if_pos hpk, if_pos hpk]
      · rw [if_neg hpk, if_neg hpk, dict_lookup_append_single k' k v l h.2, hk']
        simp

theorem dict_lookup_insert (l : List (String × Nat)) (k' k : String) (v : Nat) :
    dict_lookup (dict_insert l k' v) k = if k' == k then some v else dict_lookup l k := by
  by_cases hany : (l.any fun p => p.1 == k') = true
  · rw [dict_insert, if_pos hany]
    by_cases hk : (k' == k) = true
    · have hkk : k' = k := by simpa using hk
      subst hkk
      rw [if_pos hk]
      exact dict_lookup_map_update_self k' v l hany
    · have hk' : (k' == k) = false := by simpa using hk
      rw [if_neg hk]
      exact dict_lookup_map_update_ne k' k v hk' l
  · have hany' : (l.any fun p => p.1 == k') = false := by
      rw [← Bool.not_eq_true]
      exact hany
    rw [dict_insert, if_neg hany]
    exact dict_lookup_append_single k' k v l hany'

theorem import_fold_lookup (run_import : AccountConfig → Nat) (k : String) :
    ∀ (accs : List AccountConfig) (init : List (String × Nat)),
      dict_lookup
          (accs.foldl (fun r a => dict_insert r a.ledger_account (run_import a)) init) k =
        match accs.reverse.find? (fun a => a.ledger_account == k) with
        | some a => some (run_import a)
        | none => dict_lookup init k
  | [], init => rfl
  | a :: accs, init => by
    rw [List.foldl_cons,
      import_fold_lookup run_import k accs (dict_insert init a.ledger_account (run_import a))]
    have hrev : (a :: accs).reverse = accs.reverse ++ [a] := by simp
    rw [hrev, List.find?_append]
    cases hf : accs.reverse.find? (fun x => x.ledger_account == k) with
    | some b => rw [Option.or_some]
    | none =>
      rw [Option.none_or, dict_lookup_insert]
      by_cases hak : (a.ledger_account == k) = true
      · have hfind : List.find? (fun x : AccountConfig => x.ledger_account == k) [a] = some a :=
          @List.find?_cons_of_pos _ (fun x : AccountConfig => x.ledger_account == k) a [] hak
        rw [hfind, if_pos hak]
      · have hfind : List.find? (fun x : AccountConfig => x.ledger_account == k) [a] =
            List.find? (fun x : AccountConfig => x.ledger_account == k) [] :=
          @List.find?_cons_of_neg _ (fun x : AccountConfig => x.ledger_account == k) a [] hak
        rw [hfind, if_neg hak]
        rfl

theorem import_fold_length (run_import : AccountConfig → Nat) :
    ∀ (accs : List AccountConfig) (init : List (String × Nat)),
      (accs.foldl (fun r a => dict_insert r a.ledger_account (run_import a)) init).length ≤
        init.length + accs.length
  | [], init => by simp
  | a :: accs, init => by
    rw [List.foldl_cons]
    have h1 := import_fold_length run_import accs
      (dict_insert init a.ledger_account (run_import a))
    have h2 : (dict_insert init a.ledger_account (run_import a)).length ≤ init.length + 1 := by
      rw [dict_insert]
      split
      · rw [List.length_map]
        omega
      · rw [List.length_append]
        simp
    simp only [List.length_cons]
    omega

theorem dict_insert_keys_nodup (l : List (String × Nat)) (k : String) (v : Nat)
    (h : (l.map Prod.fst).Nodup) : ((dict_insert l k v).map Prod.fst).Nodup := by
  rw [dict_insert]
  split
  · have : (l.map fun p => if p.1 == k then (k, v) else p).map Prod.fst = l.map Prod.fst := by
      rw [List.map_map]
      refine List.map_congr_left ?_
      intro p _
      by_cases hp : (p.1 == k) = true
      · have hp1 : p.1 = k := by simpa using hp
        simp [Function.comp, hp, hp1]
      · simp [Function.comp, hp]
    rw [this]
    exact h
  · rename_i hany
    have hnotin : k ∉ l.map Prod.fst := by
      intro hk
      obtain ⟨p, hp, hpk⟩ := List.mem_map.mp hk
      exact hany (List.any_eq_true.mpr ⟨p, hp, by simp [hpk]⟩)
    rw [List.map_append]
    exact List.Nodup.append h (List.nodup_singleton k) (by
      intro x hx hx'
      have hxk : x = k := List.mem_singleton.mp hx'
      subst hxk
      exact hnotin hx)

theorem import_fold_keys_nodup (run_import : AccountConfig → Nat) :
    ∀ (accs : List AccountConfig) (init : List (String × Nat)),
      (init.map Prod.fst).Nodup →
      (((accs.foldl (fun r a => dict_insert r a.ledger_account (run_import a)) init)).map
        Prod.fst).Nodup
  | [], _, h => h
  | a :: accs, init, h => by
    rw [List.foldl_cons]
    exact import_fold_keys_nodup run_import accs _
      (dict_insert_keys_nodup init a.ledger_account (run_import a) h)

theorem countP_key_le_one (l : List (String × Nat)) (h : (l.map Prod.fst).Nodup)
    (k : String) : l.countP (fun p => p.1 == k) ≤ 1 := by
  have hc := List.nodup_iff_count_le_one.mp h k
  rw [List.count_eq_countP, List.countP_map] at hc
  have : ((fun x => x == k) ∘ Prod.fst) = fun p : String × Nat => p.1 == k := rfl
  rw [this] at hc
  exact hc

theorem import_all_eq (config : Config) (run_import : AccountConfig → Nat) :
    import_all config run_import =
      (config.accounts.filter fun acc => acc.enabled).foldl
        (fun r a => dict_insert r a.ledger_account (run_import a)) [] := by
  simp only [import_all]
  split
  · rename_i h
    rw [List.isEmpty_iff.mp h]
    rfl
  · rfl

/-- Two enabled accounts sharing one `ledger_account` destination. -/
def sample_shared_a : AccountConfig :=
  { id := 1, mm_name := "A", currency := "EUR", ledger_account := "Assets:Shared",
    journal_file := "a.journal", start_date := "2024-01-01", enabled := true,
    iban := none, bic := none }

/-- Second account writing to the same `ledger_account` as
`sample_shared_a`. -/
def sample_shared_b : AccountConfig :=
  { id := 2, mm_name := "B", currency := "EUR", ledger_account := "Assets:Shared",
    journal_file := "b.journal", start_date := "2024-01-01", enabled := true,
    iban := none, bic := none }

/-- C10: `import_all` keys its result mapping by `ledger_account` name,
not by account id: looking up a name returns the count of the LAST
enabled account in config order bearing that name (earlier counts are
overwritten), each name holds at most one entry, and the mapping can
have fewer entries than there are enabled accounts — concretely, two
enabled accounts sharing `"Assets:Shared"` with counts 1 and 2 yield
the single-entry mapping `[("Assets:Shared", 2)]`. -/
theorem import_all_keyed_by_ledger_account (config : Config)
    (run_import : AccountConfig → Nat) (k : String) :
    dict_lookup (import_all config run_import) k =
      ((config.accounts.filter fun acc => acc.enabled).reverse.find?
        (fun a => a.ledger_account == k)).map run_import ∧
    (import_all config run_import).countP (fun p => p.1 == k) ≤ 1 ∧
    (import_all config run_import).length ≤
      (config.accounts.filter fun acc => acc.enabled).length ∧
    import_all { database_path := "", accounts := [sample_shared_a, sample_shared_b] }
        (fun a => a.id.toNat) = [("Assets:Shared", 2)] := by
  refine ⟨?_, ?_, ?_, by decide⟩
  · rw [import_all_eq, import_fold_lookup]
    cases hf : (config.accounts.filter fun acc => acc.enabled).reverse.find?
        (fun a => a.ledger_account == k) with
    | some a => rfl
    | none => rfl
  · rw [import_all_eq]
    exact countP_key_le_one _
      (import_fold_keys_nodup run_import (config.accounts.filter fun acc => acc.enabled) []
        (by simp)) k
  · rw [import_all_eq]
    have h := import_fold_length run_import (config.accounts.filter fun acc => acc.enabled) []
    simpa using h
